import Mathlib

/-!
Verification of the oxidize-js wrapper library (`src/result.ts`, `src/options.ts`,
and the symbol-tagged Option variant).  The repository holds several historical
variants of the same two types side by side:

* a union-type Result variant: `type Result<T> = T | Error`, with free
  functions (`Ok`, `Fail`, `isOk`, `isFail`, `unwrap`, `arrayToResult`,
  `getResult`, `getResultAsync`, `and`, `andThen`, ...) — modelled in the
  `Uni` hierarchy over an explicit JavaScript value domain `JSVal`;
* a class-based Result variant (`class Result<T, F>` with `_value`/`_isOk`)
  — modelled in the `Cls` hierarchy as a tagged sum, since its two
  constructors `Ok`/`Fail` always set `(_value, _isOk)` together and every
  method branches on `_isOk`;
* a union-type Option variant: `type Option<T> = T | void | undefined`
  — modelled in the `UniOpt` hierarchy over `JSVal`;
* a class-based Option variant (`class Option<T>` whose absence test is
  `this.value !== void 0`) — modelled as the structure `OptionCls`;
* a symbol-tagged Option variant (private `EMPTY_VALUE` symbol marks
  absence) — modelled as the structure `OptionSym`, with the private
  symbol modelled by `Option.none` on the stored slot.
-/

/-- A JavaScript runtime value, as far as the library inspects values:
the library only ever distinguishes `instanceof Error`, `=== undefined`,
`=== null`, and otherwise passes values through.  An `Error` instance is
modelled by its message string; arrays model the collections built by
`arrayToResult`. -/
inductive JSVal : Type where
  | num : Int → JSVal
  | str : String → JSVal
  | bool : Bool → JSVal
  | null : JSVal
  | undef : JSVal
  | error : String → JSVal
  | arr : List JSVal → JSVal

/-- `v instanceof Error`. -/
def JSVal.isError : JSVal → Bool
  | .error _ => true
  | _ => false

/-- `v === undefined` (the source writes `void 0`). -/
def JSVal.isUndefined : JSVal → Bool
  | .undef => true
  | _ => false

/-- `v === null`. -/
def JSVal.isNull : JSVal → Bool
  | .null => true
  | _ => false

/-- JavaScript string coercion `` `${v}` `` as used by
`new Error(\x60${e}\x60)` in `getResult`: numbers print in decimal, an
`Error` prints as `Error: message`, arrays join their elements with commas. -/
def JSVal.toStr : JSVal → String
  | .num n => toString n
  | .str s => s
  | .bool b => if b then "true" else "false"
  | .null => "null"
  | .undef => "undefined"
  | .error m => "Error: " ++ m
  | .arr xs => String.intercalate "," (xs.attach.map (fun v => v.1.toStr))
decreasing_by
  simp_wf
  have h := List.sizeOf_lt_of_mem v.2
  simp [JSVal.arr.sizeOf_spec] at *
  omega

/-! ## Union-type Result variant (`src/result.ts`, first half)

`type Result<T> = T | Error`: a Result is just a value, failures are the
values that are `instanceof Error`. -/

/-- `isOk(result)` — `!(result instanceof Error)`. -/
def Uni.isOk (result : JSVal) : Bool := !result.isError

/-- `isFail(result)` — `result instanceof Error`. -/
def Uni.isFail (result : JSVal) : Bool := result.isError

/-- `Ok(t)` — the union variant returns `t` unchanged. -/
def Uni.Ok (t : JSVal) : JSVal := t

/-- `Fail(f)` — `if (isFail(f)) return f; return new Error(f);`
(the `Error` constructor coerces its argument to a string message). -/
def Uni.Fail (f : JSVal) : JSVal :=
  if Uni.isFail f then f else JSVal.error f.toStr

/-- `unwrap(result)` — the source body is
`if (!isOk(result)) { throw result; } throw result;`:
it throws `result` on BOTH branches.  Raising is modelled by
`Except.error`, a normal return by `Except.ok`. -/
def Uni.unwrap (result : JSVal) : Except JSVal JSVal :=
  if !(Uni.isOk result) then Except.error result
  else Except.error result

/-- Loop body of `arrayToResult`: `collection` accumulates the pushed
values; the first element with `isFail` is returned verbatim. -/
def Uni.arrayToResultAux : List JSVal → List JSVal → JSVal
  | [], collection => JSVal.arr collection
  | result :: rest, collection =>
      if Uni.isFail result then result
      else Uni.arrayToResultAux rest (collection ++ [result])

/-- `arrayToResult(results)` — left-to-right scan; first failure is
returned verbatim, else the collected array of values. -/
def Uni.arrayToResult (results : List JSVal) : JSVal :=
  Uni.arrayToResultAux results []

/-- `getResult(fn)` — the computation's observable outcome is modelled as
`Except.ok v` (normal return of `v`) or `Except.error e` (thrown `e`).
Source: `try { return fn(); } catch (e) { if (isFail(e)) return e;
return new Error(\x60${e}\x60); }`. -/
def Uni.getResult (op : Except JSVal JSVal) : JSVal :=
  match op with
  | Except.ok v => v
  | Except.error e => if Uni.isFail e then e else JSVal.error e.toStr

/-- `getResultAsync(op)` — `try { return await op(); } catch (error)
{ return error; }`: the rejection value is returned verbatim.  The settled
promise outcome is modelled as an `Except`. -/
def Uni.getResultAsync (op : Except JSVal JSVal) : JSVal :=
  match op with
  | Except.ok v => v
  | Except.error e => e

/-- Implementation body of the union variant's `and`:
`if (isOk(lhs)) { return rhs; } return lhs;`. -/
def Uni.and (lhs rhs : JSVal) : JSVal :=
  if Uni.isOk lhs then rhs else lhs

/-- A call `and(r1, a, b, ..., rn)` under JavaScript argument binding: the
body names only `lhs` and `rhs`, so `rhs` is bound to the second argument
(`undefined` if missing) and every later argument is dropped before the
body runs.  `args` are the arguments after the first. -/
def Uni.andVariadic (lhs : JSVal) (args : List JSVal) : JSVal :=
  Uni.and lhs (args.headD JSVal.undef)

/-- `andThen(result, ...ops)` — `ops.reduce((lhs, op) => isOk(lhs) ?
op(lhs) : lhs, result)`. -/
def Uni.andThen (result : JSVal) (ops : List (JSVal → JSVal)) : JSVal :=
  ops.foldl (fun lhs op => if Uni.isOk lhs then op lhs else lhs) result

/-! ## Class-based Result variant (`src/result.ts`, second half)

`class Result<T, F>` stores `(_value : T | F, _isOk : boolean)`, set
together by `Ok(t) = new Result(t, true)` and `Fail(f) = new Result(f,
false)`; every method branches on `_isOk` and then reads `_value` at the
matching type.  The pair is therefore modelled as the tagged sum below:
`Ok t` is the state `(_value = t, _isOk = true)` and `Fail f` the state
`(_value = f, _isOk = false)`. -/

inductive Cls.Result (T F : Type) : Type where
  | Ok : T → Cls.Result T F
  | Fail : F → Cls.Result T F

/-- `isOk()` — `return this._isOk;`. -/
def Cls.Result.isOk : Cls.Result T F → Bool
  | .Ok _ => true
  | .Fail _ => false

/-- `isFail()` — `return !this._isOk;`. -/
def Cls.Result.isFail : Cls.Result T F → Bool
  | .Ok _ => false
  | .Fail _ => true

/-- `unwrap()` — `if (!this._isOk) { throw this._value; } return this._value;`
(raising modelled by `Except.error`). -/
def Cls.Result.unwrap : Cls.Result T F → Except F T
  | .Ok t => Except.ok t
  | .Fail f => Except.error f

/-- `andThen(op)` — `if (this._isOk) { return op(this._value); } return this;`. -/
def Cls.Result.andThen : Cls.Result T F → (T → Cls.Result U F) → Cls.Result U F
  | .Ok t, op => op t
  | .Fail f, _ => .Fail f

/-- Loop body of `Result.fromArray`: `collection` accumulates
`result.unwrap()` for each `Ok` (the preceding `isFail` check makes that
unwrap return the payload); the first `Fail` is returned verbatim. -/
def Cls.Result.fromArrayAux : List (Cls.Result T F) → List T → Cls.Result (List T) F
  | [], collection => .Ok collection
  | .Fail f :: _, _ => .Fail f
  | .Ok t :: rest, collection => Cls.Result.fromArrayAux rest (collection ++ [t])

/-- `Result.fromArray(results)` — left-to-right scan; first `Fail` is
returned verbatim, else `Ok` of the collected payloads. -/
def Cls.Result.fromArray (results : List (Cls.Result T F)) : Cls.Result (List T) F :=
  Cls.Result.fromArrayAux results []

/-- `Result.wrap(op)` — `try { return Ok(op()); } catch (error) { return
Fail(error); }`; the computation's outcome is modelled as an `Except`
(`ok` = normal return, `error` = thrown value). -/
def Cls.Result.wrap (op : Except F T) : Cls.Result T F :=
  match op with
  | Except.ok v => .Ok v
  | Except.error e => .Fail e

/-- `Result.wrapAsync(op)` — same capture applied to the settled promise:
`try { return Ok(await op()); } catch (error) { return Fail(error); }`.
The resulting promise always resolves to the returned wrapper (the
function is total: it never yields `Except.error`, i.e. never rejects). -/
def Cls.Result.wrapAsync (op : Except F T) : Cls.Result T F :=
  match op with
  | Except.ok v => .Ok v
  | Except.error e => .Fail e

/-! ## Union-type Option variant (`src/options.ts`, middle section)

`type Option<T> = T | void | undefined`: an Option is just a value;
`None()` returns `void 0` and `isSome`/`isNone` test against `void 0`
and `null`. -/

/-- `Some(value)` — returns `value` unchanged. -/
def UniOpt.Some (value : JSVal) : JSVal := value

/-- `None()` — `return void 0;`. -/
def UniOpt.NoneV : JSVal := JSVal.undef

/-- `isSome(opt)` — `opt !== void 0 && opt !== null`. -/
def UniOpt.isSome (opt : JSVal) : Bool := !opt.isUndefined && !opt.isNull

/-- `isNone(opt)` — `opt === void 0 || opt === null`. -/
def UniOpt.isNone (opt : JSVal) : Bool := opt.isUndefined || opt.isNull

/-- `toOption(opt)` — `if (isSome(opt)) { return opt; } return None();`. -/
def UniOpt.toOption (opt : JSVal) : JSVal :=
  if UniOpt.isSome opt then opt else UniOpt.NoneV

/-- `unwrap(opt, msg = "Attempted to unwrap a \x60None\x60 Option")` —
returns the value if `isSome`, else `throw new Error(msg)`.  The optional
parameter is modelled as an `Option String`, `none` meaning the call left
it out so the default applies; the raised error carries its message. -/
def UniOpt.unwrap (opt : JSVal) (msg : Option String) : Except String JSVal :=
  if UniOpt.isSome opt then Except.ok opt
  else Except.error (msg.getD "Attempted to unwrap a `None` Option")

/-- `filter(opt, ...fn)` — `fn.reduce((val, op) => isSome(val) && op(val)
? val : None(), opt)`. -/
def UniOpt.filter (opt : JSVal) (fn : List (JSVal → Bool)) : JSVal :=
  fn.foldl (fun val op => if UniOpt.isSome val && op val then val else UniOpt.NoneV) opt

/-- `andThen(opt, ...fn)` — `fn.reduce((val, op) => isSome(val) ? op(val)
: None(), opt)`. -/
def UniOpt.andThen (opt : JSVal) (fn : List (JSVal → JSVal)) : JSVal :=
  fn.foldl (fun val op => if UniOpt.isSome val then op val else UniOpt.NoneV) opt

/-! ## Class-based Option variant (`src/options.ts`, first and last sections)

`class Option<T> { constructor(private value?: T) }`: the stored slot is
the constructor argument, `undefined` when constructed by `None()`;
`isSome()` is `this.value !== void 0`.  Both class sections of
`options.ts` share this representation, constructors, `isSome`/`isNone`,
and `unwrap`; the last section adds `Option.from`, `filter`, `andThen`. -/

structure OptionCls : Type where
  value : JSVal

/-- `Some(value)` — `new Option(value)`. -/
def OptionCls.Some (value : JSVal) : OptionCls := ⟨value⟩

/-- `None()` — `new Option()`: the slot holds `undefined`. -/
def OptionCls.None : OptionCls := ⟨JSVal.undef⟩

/-- `isSome()` — `this.value !== void 0`. -/
def OptionCls.isSome (o : OptionCls) : Bool := !o.value.isUndefined

/-- `isNone()` — `this.value === void 0`. -/
def OptionCls.isNone (o : OptionCls) : Bool := o.value.isUndefined

/-- `Option.from(value)` — `if (value instanceof Option) return value;
if (value !== void 0 && value !== null) return Some(value); return
None();`.  The argument domain `T | undefined | null | Option<T>` is
modelled as a sum: `Sum.inr` is an `Option` instance, `Sum.inl` a raw
value. -/
def OptionCls.from' (value : JSVal ⊕ OptionCls) : OptionCls :=
  match value with
  | Sum.inr o => o
  | Sum.inl v =>
      if !v.isUndefined && !v.isNull then OptionCls.Some v else OptionCls.None

/-- `unwrap(msg = "Attempted to unwrap a \x60None\x60 Option")` — returns
the value if `isSome`, else `throw new Error(msg)`; the optional
parameter is an `Option String`, `none` meaning the default applies. -/
def OptionCls.unwrap (o : OptionCls) (msg : Option String) : Except String JSVal :=
  if o.isSome then Except.ok o.value
  else Except.error (msg.getD "Attempted to unwrap a `None` Option")

/-- `filter(fn)` — `if (this.isSome() && fn(this.value)) { return this; }
return None();`. -/
def OptionCls.filter (o : OptionCls) (fn : JSVal → Bool) : OptionCls :=
  if o.isSome && fn o.value then o else OptionCls.None

/-- `andThen(fn)` — `if (this.isSome()) { return fn(this.value); }
return None();`. -/
def OptionCls.andThen (o : OptionCls) (fn : JSVal → OptionCls) : OptionCls :=
  if o.isSome then fn o.value else OptionCls.None

/-! ## Symbol-tagged Option variant (`src/unnamed/part_003`)

`class Option<T>` whose slot `#value : T | typeof EMPTY_VALUE` uses a
private unique symbol for absence, so any user value — `undefined` and
`null` included — is a present value.  The slot is modelled as
`Option JSVal`, `Option.none` standing for the private `EMPTY_VALUE`
symbol (which no user value can equal). -/

structure OptionSym : Type where
  value : Option JSVal

/-- `Option.Some(value)` — `new Option(INTERNAL, value)`. -/
def OptionSym.Some (value : JSVal) : OptionSym := ⟨Option.some value⟩

/-- `Option.None()` — `new Option(INTERNAL, EMPTY_VALUE)`. -/
def OptionSym.None : OptionSym := ⟨Option.none⟩

/-- `isSome()` — `this.#value !== EMPTY_VALUE`. -/
def OptionSym.isSome (o : OptionSym) : Bool := o.value.isSome

/-- `isNone()` — `this.#value === EMPTY_VALUE`. -/
def OptionSym.isNone (o : OptionSym) : Bool := o.value.isNone

/-- `Option.from(value)` — `if (value instanceof Option) return value;
if (value !== void 0 && value !== null) return Option.Some(value);
return Option.None();`. -/
def OptionSym.from' (value : JSVal ⊕ OptionSym) : OptionSym :=
  match value with
  | Sum.inr o => o
  | Sum.inl v =>
      if !v.isUndefined && !v.isNull then OptionSym.Some v else OptionSym.None

/-- `filter(fn)` — `if (this.isSome() && fn(this.#value)) { return this; }
return Option.None();` (the `#value` read happens only when `isSome`,
matching JavaScript's short-circuiting `&&`). -/
def OptionSym.filter (o : OptionSym) (fn : JSVal → Bool) : OptionSym :=
  match o.value with
  | Option.some v => if fn v then o else OptionSym.None
  | Option.none => OptionSym.None

/-- `andThen(fn)` — `if (this.isSome()) { return fn(this.#value); }
return Option.None();`. -/
def OptionSym.andThen (o : OptionSym) (fn : JSVal → OptionSym) : OptionSym :=
  match o.value with
  | Option.some v => fn v
  | Option.none => OptionSym.None

/-- A sample predicate used to exercise `filter`: the spec's `isEven`. -/
def isEvenJS : JSVal → Bool
  | .num n => n % 2 == 0
  | _ => false

/-! ## Helper lemmas -/

/-- Scanning a list of `Ok`s appends all payloads to the accumulator. -/
theorem Cls.Result.fromArrayAux_allOk {T F : Type} (ts acc : List T) :
    Cls.Result.fromArrayAux (F := F) (ts.map Cls.Result.Ok) acc
      = Cls.Result.Ok (acc ++ ts) := by
  induction ts generalizing acc with
  | nil => simp [Cls.Result.fromArrayAux]
  | cons t ts ih =>
      simp only [List.map_cons, Cls.Result.fromArrayAux, ih]
      simp

/-- A `Fail` preceded only by non-failures is returned verbatim. -/
theorem Cls.Result.fromArrayAux_firstFail {T F : Type}
    (rs₁ : List (Cls.Result T F)) (f : F) (rs₂ : List (Cls.Result T F))
    (acc : List T) (h : ∀ r ∈ rs₁, r.isFail = false) :
    Cls.Result.fromArrayAux (rs₁ ++ Cls.Result.Fail f :: rs₂) acc
      = Cls.Result.Fail f := by
  induction rs₁ generalizing acc with
  | nil => simp [Cls.Result.fromArrayAux]
  | cons r rs ih =>
      cases r with
      | Ok t =>
          simpa [Cls.Result.fromArrayAux] using
            ih (acc ++ [t]) (fun x hx => h x (List.mem_cons_of_mem _ hx))
      | Fail g =>
          have := h (Cls.Result.Fail g) (List.mem_cons_self _ _)
          simp [Cls.Result.isFail] at this

/-- Union-variant analogue: a non-failing list collects all elements. -/
theorem Uni.arrayToResultAux_allOk (vs acc : List JSVal)
    (h : ∀ v ∈ vs, Uni.isFail v = false) :
    Uni.arrayToResultAux vs acc = JSVal.arr (acc ++ vs) := by
  induction vs generalizing acc with
  | nil => simp [Uni.arrayToResultAux]
  | cons v vs ih =>
      have hv : Uni.isFail v = false := h v (List.mem_cons_self _ _)
      simp only [Uni.arrayToResultAux, hv, Bool.false_eq_true, if_false]
      rw [ih (acc ++ [v]) (fun x hx => h x (List.mem_cons_of_mem _ hx))]
      simp

/-- Union-variant analogue: the first failing element is returned verbatim. -/
theorem Uni.arrayToResultAux_firstFail (vs₁ : List JSVal) (m : String)
    (vs₂ acc : List JSVal) (h : ∀ v ∈ vs₁, Uni.isFail v = false) :
    Uni.arrayToResultAux (vs₁ ++ JSVal.error m :: vs₂) acc = JSVal.error m := by
  induction vs₁ generalizing acc with
  | nil => simp [Uni.arrayToResultAux, Uni.isFail, JSVal.isError]
  | cons v vs ih =>
      have hv : Uni.isFail v = false := h v (List.mem_cons_self _ _)
      simp only [List.cons_append, Uni.arrayToResultAux, hv, Bool.false_eq_true,
        if_false]
      exact ih (acc ++ [v]) (fun x hx => h x (List.mem_cons_of_mem _ hx))

/-- `andThen` on a failing union Result leaves it unchanged whatever the
operation list is. -/
theorem Uni.andThen_fail (r : JSVal) (ops : List (JSVal → JSVal))
    (h : Uni.isOk r = false) : Uni.andThen r ops = r := by
  induction ops with
  | nil => rfl
  | cons op ops ih =>
      have hstep : (if Uni.isOk r then op r else r) = r := by simp [h]
      calc Uni.andThen r (op :: ops) = Uni.andThen r ops := by
            simp only [Uni.andThen, List.foldl_cons, hstep]
        _ = r := ih

/-! ## Claim theorems -/

/-- C1: `unwrap` on the class variant returns the success value on `Ok`
and raises the stored failure value on `Fail`, but the free-function
union-variant `unwrap` throws `result` on BOTH branches of its body, so
it raises even on a success wrapper — e.g. `unwrap(Ok(2))` throws `2`
instead of returning it, contradicting the function's own doc example
`expect(unwrap(Ok(2))).toEqual(Ok(2))`. -/
theorem c1_unwrap_code_bug :
    Uni.unwrap (Uni.Ok (JSVal.num 2)) = Except.error (JSVal.num 2)
    ∧ (∀ r : JSVal, Uni.unwrap r = Except.error r)
    ∧ (∀ (T F : Type) (v : T),
        (Cls.Result.Ok v : Cls.Result T F).unwrap = Except.ok v)
    ∧ (∀ (T F : Type) (f : F),
        (Cls.Result.Fail f : Cls.Result T F).unwrap = Except.error f) := by
  refine ⟨rfl, ?_, fun T F v => rfl, fun T F f => rfl⟩
  intro r
  simp [Uni.unwrap]

/-- C2: `fromArray`/`arrayToResult` scan left to right: the first failure
wrapper (earliest index) is returned verbatim, and a failure-free list
yields a success wrapping the unwrapped values in input order — in both
the class variant and the union variant. -/
theorem c2_fromArray_spec :
    (∀ (T F : Type) (ts : List T),
        Cls.Result.fromArray (ts.map Cls.Result.Ok : List (Cls.Result T F))
          = Cls.Result.Ok ts)
    ∧ (∀ (T F : Type) (rs₁ : List (Cls.Result T F)) (f : F)
        (rs₂ : List (Cls.Result T F)), (∀ r ∈ rs₁, r.isFail = false) →
        Cls.Result.fromArray (rs₁ ++ Cls.Result.Fail f :: rs₂)
          = Cls.Result.Fail f)
    ∧ (∀ vs : List JSVal, (∀ v ∈ vs, Uni.isFail v = false) →
        Uni.arrayToResult vs = JSVal.arr vs)
    ∧ (∀ (vs₁ : List JSVal) (m : String) (vs₂ : List JSVal),
        (∀ v ∈ vs₁, Uni.isFail v = false) →
        Uni.arrayToResult (vs₁ ++ JSVal.error m :: vs₂) = JSVal.error m) := by
  refine ⟨?_, ?_, ?_, ?_⟩
  · intro T F ts
    simpa using Cls.Result.fromArrayAux_allOk ts []
  · intro T F rs₁ f rs₂ h
    exact Cls.Result.fromArrayAux_firstFail rs₁ f rs₂ [] h
  · intro vs h
    simpa using Uni.arrayToResultAux_allOk vs [] h
  · intro vs₁ m vs₂ h
    exact Uni.arrayToResultAux_firstFail vs₁ m vs₂ [] h

/-- Witness for C2: `fromArray([Ok 1, Fail "e", Ok 3]) = Fail "e"` and
`arrayToResult([1, 2]) = [1, 2]`. -/
theorem c2_fromArray_spec_witness :
    Cls.Result.fromArray
        [Cls.Result.Ok 1, Cls.Result.Fail "e", (Cls.Result.Ok 3 : Cls.Result Nat String)]
      = Cls.Result.Fail "e"
    ∧ Uni.arrayToResult [JSVal.num 1, JSVal.num 2]
      = JSVal.arr [JSVal.num 1, JSVal.num 2] :=
  ⟨c2_fromArray_spec.2.1 Nat String [Cls.Result.Ok 1] "e" [Cls.Result.Ok 3]
      (by decide),
   c2_fromArray_spec.2.2.1 [JSVal.num 1, JSVal.num 2]
      (by intro v hv
          simp only [List.mem_cons, List.not_mem_nil, or_false] at hv
          rcases hv with rfl | rfl <;> rfl)⟩

/-- C9: the variadic free-function `and` only ever uses its first two
arguments — its body names `lhs` and `rhs`, so the result is `rhs` (the
second argument) when `lhs` is success and `lhs` when it is a failure,
and every argument after the second is ignored; in particular
`and(Ok(1), Fail(2), Ok(3)) = Fail(2)`. -/
theorem c9_and_ignores_extra_args :
    (∀ (r1 r2 : JSVal) (rest : List JSVal),
        Uni.andVariadic r1 (r2 :: rest) = if Uni.isOk r1 then r2 else r1)
    ∧ (∀ (r1 r2 : JSVal) (rest rest' : List JSVal),
        Uni.andVariadic r1 (r2 :: rest) = Uni.andVariadic r1 (r2 :: rest'))
    ∧ Uni.andVariadic (Uni.Ok (JSVal.num 1))
        [Uni.Fail (JSVal.num 2), Uni.Ok (JSVal.num 3)] = Uni.Fail (JSVal.num 2) :=
  ⟨fun _ _ _ => rfl, fun _ _ _ _ => rfl, rfl⟩

/-- C10: in the union variant the discriminant is the payload's runtime
type: `Ok(v)` of an `Error` instance `v` satisfies `isFail` and not
`isOk` (indeed `Ok(v) = Fail(v)` there), and for every value `isOk` and
`isFail` are mutually exclusive and exhaustive (`isFail = !isOk`). -/
theorem c10_ok_error_indistinguishable :
    (∀ m : String, Uni.isFail (Uni.Ok (JSVal.error m)) = true
        ∧ Uni.isOk (Uni.Ok (JSVal.error m)) = false
        ∧ Uni.Ok (JSVal.error m) = Uni.Fail (JSVal.error m))
    ∧ (∀ v : JSVal, Uni.isFail v = !Uni.isOk v) := by
  refine ⟨fun m => ⟨rfl, rfl, rfl⟩, ?_⟩
  intro v
  simp [Uni.isFail, Uni.isOk]

/-- C3 counterexample: in the class-based Option variant of
`src/options.ts` the present-value constructor applied to `undefined`
yields a wrapper whose `isSome()` is `false` — the stored value
`undefined` is the in-band absence sentinel, so `Some(undefined)` is not
a present wrapper as the claim requires. -/
theorem c3_some_undefined_counterexample :
    OptionCls.isSome (OptionCls.Some JSVal.undef) = false := rfl

/-- C3 amended: in the symbol-tagged variant (`src/unnamed/part_003`)
absence is a canonical out-of-band state, so `Some(v)` is present for
every value `v` (including `undefined` and `null`) and every
absence-producing path (`None()`, `from(null)`, `from(undefined)`, an
absent result of `filter`/`andThen`) yields the canonical `None`; in the
class variant of `src/options.ts` the stored value `undefined` is the
absence sentinel: `Some(v)` is present exactly when `v` is not
`undefined` (so `Some(undefined)` IS the absent state), while all its
absence-producing paths still agree on that single state. -/
theorem c3_canonical_absence_amended :
    (∀ v : JSVal, OptionSym.isSome (OptionSym.Some v) = true)
    ∧ OptionSym.from' (Sum.inl JSVal.null) = OptionSym.None
    ∧ OptionSym.from' (Sum.inl JSVal.undef) = OptionSym.None
    ∧ (∀ fn, OptionSym.filter OptionSym.None fn = OptionSym.None)
    ∧ (∀ (v : JSVal) (fn : JSVal → Bool), fn v = false →
        OptionSym.filter (OptionSym.Some v) fn = OptionSym.None)
    ∧ (∀ fn, OptionSym.andThen OptionSym.None fn = OptionSym.None)
    ∧ (∀ v : JSVal, OptionCls.isSome (OptionCls.Some v) = !v.isUndefined)
    ∧ OptionCls.Some JSVal.undef = OptionCls.None
    ∧ OptionCls.from' (Sum.inl JSVal.null) = OptionCls.None
    ∧ OptionCls.from' (Sum.inl JSVal.undef) = OptionCls.None
    ∧ (∀ fn, OptionCls.filter OptionCls.None fn = OptionCls.None)
    ∧ (∀ (v : JSVal) (fn : JSVal → Bool), OptionCls.isSome (OptionCls.Some v) = true →
        fn v = false → OptionCls.filter (OptionCls.Some v) fn = OptionCls.None)
    ∧ (∀ fn, OptionCls.andThen OptionCls.None fn = OptionCls.None) := by
  refine ⟨fun v => rfl, rfl, rfl, fun fn => rfl, ?_, fun fn => rfl, fun v => rfl,
    rfl, rfl, rfl, fun fn => rfl, ?_, fun fn => rfl⟩
  · intro v fn h
    simp [OptionSym.filter, OptionSym.Some, h]
  · intro v fn hs h
    simp [OptionCls.filter, OptionCls.Some, h]

/-- Witness for C3's amended theorem: filtering `Some 3` with `isEven`
yields the canonical absent state in both variants. -/
theorem c3_canonical_absence_amended_witness :
    OptionSym.filter (OptionSym.Some (JSVal.num 3)) isEvenJS = OptionSym.None
    ∧ OptionCls.filter (OptionCls.Some (JSVal.num 3)) isEvenJS = OptionCls.None :=
  ⟨c3_canonical_absence_amended.2.2.2.2.1 (JSVal.num 3) isEvenJS (by decide),
   c3_canonical_absence_amended.2.2.2.2.2.2.2.2.2.2.2.1 (JSVal.num 3) isEvenJS
      rfl (by decide)⟩

/-- C4 counterexample: `getResult` does NOT store a thrown non-Error
value unmodified — throwing the string `"x"` stores `new Error("x")`,
not `"x"` itself — and `getResultAsync` returns a non-Error rejection
value verbatim, which is not in the failure state at all. -/
theorem c4_capture_counterexample :
    Uni.getResult (Except.error (JSVal.str "x")) = JSVal.error "x"
    ∧ JSVal.error "x" ≠ JSVal.str "x"
    ∧ Uni.isFail (Uni.getResultAsync (Except.error (JSVal.str "x"))) = false := by
  refine ⟨?_, ?_, rfl⟩
  · simp [Uni.getResult, Uni.isFail, JSVal.isError, JSVal.toStr]
  · intro h
    exact JSVal.noConfusion h

/-- C4 amended: a normal return `v` yields the success wrapper of `v` in
all four helpers, and they catch exactly once and never re-raise (each is
a total function into the wrapper type).  A thrown/rejected value `e` is
stored unmodified by the class variant's `wrap`/`wrapAsync`, and by the
union variant's `getResult` whenever `e` is an `Error` instance; but
union `getResult` coerces a thrown non-Error `e` to `new Error` of its
string coercion, and union `getResultAsync` returns a non-Error rejection
value verbatim, which lands in the success state. -/
theorem c4_capture_amended :
    (∀ (T F : Type) (v : T), (Cls.Result.wrap (Except.ok v) : Cls.Result T F)
        = Cls.Result.Ok v)
    ∧ (∀ (T F : Type) (e : F), (Cls.Result.wrap (Except.error e) : Cls.Result T F)
        = Cls.Result.Fail e)
    ∧ (∀ (T F : Type) (v : T), (Cls.Result.wrapAsync (Except.ok v) : Cls.Result T F)
        = Cls.Result.Ok v)
    ∧ (∀ (T F : Type) (e : F), (Cls.Result.wrapAsync (Except.error e) : Cls.Result T F)
        = Cls.Result.Fail e)
    ∧ (∀ v : JSVal, Uni.getResult (Except.ok v) = v)
    ∧ (∀ e : JSVal, Uni.isFail e = true → Uni.getResult (Except.error e) = e)
    ∧ (∀ e : JSVal, Uni.isFail e = false →
        Uni.getResult (Except.error e) = JSVal.error e.toStr)
    ∧ (∀ v : JSVal, Uni.getResultAsync (Except.ok v) = v)
    ∧ (∀ e : JSVal, Uni.getResultAsync (Except.error e) = e) := by
  refine ⟨fun T F v => rfl, fun T F e => rfl, fun T F v => rfl, fun T F e => rfl,
    fun v => rfl, ?_, ?_, fun v => rfl, fun e => rfl⟩
  · intro e h
    simp [Uni.getResult, h]
  · intro e h
    simp [Uni.getResult, h]

/-- Witness for C4's amended theorem: a thrown `Error` is stored
unmodified by `getResult`, and a thrown string is coerced. -/
theorem c4_capture_amended_witness :
    Uni.getResult (Except.error (JSVal.error "boom")) = JSVal.error "boom"
    ∧ Uni.getResult (Except.error (JSVal.str "x")) = JSVal.error "x" :=
  ⟨c4_capture_amended.2.2.2.2.2.1 (JSVal.error "boom") rfl,
   by have h := c4_capture_amended.2.2.2.2.2.2.1 (JSVal.str "x") rfl
      simpa [JSVal.toStr] using h⟩

/-- C5: `andThen(r, f)` equals `f(v)` when `r` is a success holding `v`,
and equals `r` unchanged when `r` is a failure, with `f` never invoked on
a failure (the failure-state result does not depend on `f`) — in both the
class variant and the union variant; both embeddings are total functions
into the wrapper type, so `andThen` itself never raises. -/
theorem c5_andThen_spec :
    (∀ (T F U : Type) (v : T) (f : T → Cls.Result U F),
        (Cls.Result.Ok v).andThen f = f v)
    ∧ (∀ (T F U : Type) (e : F) (f : T → Cls.Result U F),
        (Cls.Result.Fail e).andThen f = Cls.Result.Fail e)
    ∧ (∀ (T F U : Type) (e : F) (f g : T → Cls.Result U F),
        (Cls.Result.Fail e).andThen f = (Cls.Result.Fail e).andThen g)
    ∧ (∀ (r : JSVal) (f : JSVal → JSVal), Uni.isOk r = true →
        Uni.andThen r [f] = f r)
    ∧ (∀ (r : JSVal) (ops : List (JSVal → JSVal)), Uni.isFail r = true →
        Uni.andThen r ops = r)
    ∧ (∀ (r : JSVal) (f g : JSVal → JSVal), Uni.isFail r = true →
        Uni.andThen r [f] = Uni.andThen r [g]) := by
  have hfail : ∀ r : JSVal, Uni.isFail r = true → Uni.isOk r = false := by
    intro r h
    simp [Uni.isOk, Uni.isFail] at *
    exact h
  refine ⟨fun T F U v f => rfl, fun T F U e f => rfl, fun T F U e f g => rfl,
    ?_, ?_, ?_⟩
  · intro r f h
    simp [Uni.andThen, Uni.isOk, Uni.isFail] at *
    simp [h]
  · intro r ops h
    exact Uni.andThen_fail r ops (hfail r h)
  · intro r f g h
    rw [Uni.andThen_fail r [f] (hfail r h), Uni.andThen_fail r [g] (hfail r h)]

/-- Witness for C5: `andThen` binds on a success and propagates a failure. -/
theorem c5_andThen_spec_witness :
    Uni.andThen (JSVal.num 2) [fun v => v] = JSVal.num 2
    ∧ Uni.andThen (JSVal.error "e") [fun _ => JSVal.num 9] = JSVal.error "e" :=
  ⟨c5_andThen_spec.2.2.2.1 (JSVal.num 2) (fun v => v) rfl,
   c5_andThen_spec.2.2.2.2.1 (JSVal.error "e") [fun _ => JSVal.num 9] rfl⟩

/-- C6: `filter(o, p)` returns `o` itself when `o` is present and `p`
holds of its value, the canonical absent state when the predicate does
not hold, and the absent state when `o` is absent, with the predicate
never invoked on an absent input (the result does not depend on it) —
in both the class variant and the (single-predicate) union variant. -/
theorem c6_filter_spec :
    (∀ (o : OptionCls) (fn : JSVal → Bool), o.isSome = true →
        fn o.value = true → o.filter fn = o)
    ∧ (∀ (o : OptionCls) (fn : JSVal → Bool), o.isSome = true →
        fn o.value = false → o.filter fn = OptionCls.None)
    ∧ (∀ (o : OptionCls) (fn : JSVal → Bool), o.isSome = false →
        o.filter fn = OptionCls.None)
    ∧ (∀ (o : OptionCls) (fn fn' : JSVal → Bool), o.isSome = false →
        o.filter fn = o.filter fn')
    ∧ (∀ (v : JSVal) (p : JSVal → Bool), UniOpt.isSome v = true →
        p v = true → UniOpt.filter v [p] = v)
    ∧ (∀ (v : JSVal) (p : JSVal → Bool), UniOpt.isSome v = true →
        p v = false → UniOpt.filter v [p] = UniOpt.NoneV)
    ∧ (∀ (v : JSVal) (p : JSVal → Bool), UniOpt.isSome v = false →
        UniOpt.filter v [p] = UniOpt.NoneV)
    ∧ (∀ (v : JSVal) (p p' : JSVal → Bool), UniOpt.isSome v = false →
        UniOpt.filter v [p] = UniOpt.filter v [p']) := by
  refine ⟨?_, ?_, ?_, ?_, ?_, ?_, ?_, ?_⟩
  · intro o fn hs hp
    simp [OptionCls.filter, hs, hp]
  · intro o fn hs hp
    simp [OptionCls.filter, hs, hp]
  · intro o fn hs
    simp [OptionCls.filter, hs]
  · intro o fn fn' hs
    simp [OptionCls.filter, hs]
  · intro v p hs hp
    simp [UniOpt.filter, hs, hp]
  · intro v p hs hp
    simp [UniOpt.filter, hs, hp]
  · intro v p hs
    simp [UniOpt.filter, hs]
  · intro v p p' hs
    simp [UniOpt.filter, hs]

/-- Witness for C6: `present(4).filter(isEven) = present(4)`,
`present(3).filter(isEven) = absent`, and the union variant agrees. -/
theorem c6_filter_spec_witness :
    OptionCls.filter (OptionCls.Some (JSVal.num 4)) isEvenJS
      = OptionCls.Some (JSVal.num 4)
    ∧ OptionCls.filter (OptionCls.Some (JSVal.num 3)) isEvenJS = OptionCls.None
    ∧ UniOpt.filter (JSVal.num 4) [isEvenJS] = JSVal.num 4
    ∧ UniOpt.filter JSVal.undef [isEvenJS] = UniOpt.NoneV :=
  ⟨c6_filter_spec.1 (OptionCls.Some (JSVal.num 4)) isEvenJS rfl (by decide),
   c6_filter_spec.2.1 (OptionCls.Some (JSVal.num 3)) isEvenJS rfl (by decide),
   c6_filter_spec.2.2.2.2.1 (JSVal.num 4) isEvenJS rfl (by decide),
   c6_filter_spec.2.2.2.2.2.2.1 JSVal.undef isEvenJS rfl⟩

/-- C7: the normalizing conversions are idempotent — `toOption(toOption x)
= toOption x` in the union variant and `Option.from(Option.from(x)) =
Option.from(x)` in the class variant — an already-wrapped value is
returned unchanged, `null`/`undefined` map to the absent state, and any
other value maps to the present wrapper of itself. -/
theorem c7_normalize_idempotent :
    (∀ x : JSVal, UniOpt.toOption (UniOpt.toOption x) = UniOpt.toOption x)
    ∧ (∀ x : JSVal ⊕ OptionCls,
        OptionCls.from' (Sum.inr (OptionCls.from' x)) = OptionCls.from' x)
    ∧ (∀ o : OptionCls, OptionCls.from' (Sum.inr o) = o)
    ∧ OptionCls.from' (Sum.inl JSVal.null) = OptionCls.None
    ∧ OptionCls.from' (Sum.inl JSVal.undef) = OptionCls.None
    ∧ (∀ v : JSVal, v.isUndefined = false → v.isNull = false →
        OptionCls.from' (Sum.inl v) = OptionCls.Some v)
    ∧ UniOpt.toOption JSVal.null = UniOpt.NoneV
    ∧ UniOpt.toOption JSVal.undef = UniOpt.NoneV
    ∧ (∀ v : JSVal, UniOpt.isSome v = true → UniOpt.toOption v = v) := by
  refine ⟨?_, fun x => rfl, fun o => rfl, rfl, rfl, ?_, rfl, rfl, ?_⟩
  · intro x
    by_cases h : UniOpt.isSome x = true
    · simp [UniOpt.toOption, h]
    · have h' : UniOpt.isSome x = false := by simpa using h
      have h1 : UniOpt.toOption x = JSVal.undef := by
        simp [UniOpt.toOption, h', UniOpt.NoneV]
      rw [h1]
      rfl
  · intro v hu hn
    simp [OptionCls.from', hu, hn]
  · intro v h
    simp [UniOpt.toOption, h]

/-- Witness for C7: normalizing the number `7` yields the present
wrapper, and normalizing a non-null value returns it unchanged. -/
theorem c7_normalize_idempotent_witness :
    OptionCls.from' (Sum.inl (JSVal.num 7)) = OptionCls.Some (JSVal.num 7)
    ∧ UniOpt.toOption (JSVal.str "a") = JSVal.str "a" :=
  ⟨c7_normalize_idempotent.2.2.2.2.2.1 (JSVal.num 7) rfl rfl,
   c7_normalize_idempotent.2.2.2.2.2.2.2.2 (JSVal.str "a") rfl⟩

/-- C8 counterexample: the default message of `unwrap` on an absent
Option is `"Attempted to unwrap a \x60None\x60 Option"`, not the claimed
`"attempted to unwrap an absent value"`. -/
theorem c8_default_message_counterexample :
    OptionCls.unwrap OptionCls.None Option.none
      = Except.error "Attempted to unwrap a `None` Option"
    ∧ "Attempted to unwrap a `None` Option" ≠ "attempted to unwrap an absent value" :=
  ⟨rfl, by decide⟩

/-- C8 amended: `unwrap(o, msg?)` returns the held value when `o` is
present and raises an error on an absent `o`, carrying the
caller-supplied message if one was given and otherwise the default
message `"Attempted to unwrap a \x60None\x60 Option"` — in the class
variant and the union variant alike. -/
theorem c8_unwrap_amended :
    (∀ (o : OptionCls) (msg : Option String), o.isSome = true →
        o.unwrap msg = Except.ok o.value)
    ∧ (∀ o : OptionCls, o.isSome = false →
        o.unwrap Option.none = Except.error "Attempted to unwrap a `None` Option")
    ∧ (∀ (o : OptionCls) (m : String), o.isSome = false →
        o.unwrap (Option.some m) = Except.error m)
    ∧ (∀ (v : JSVal) (msg : Option String), UniOpt.isSome v = true →
        UniOpt.unwrap v msg = Except.ok v)
    ∧ (∀ v : JSVal, UniOpt.isSome v = false →
        UniOpt.unwrap v Option.none
          = Except.error "Attempted to unwrap a `None` Option")
    ∧ (∀ (v : JSVal) (m : String), UniOpt.isSome v = false →
        UniOpt.unwrap v (Option.some m) = Except.error m) := by
  refine ⟨?_, ?_, ?_, ?_, ?_, ?_⟩
  · intro o msg h
    simp [OptionCls.unwrap, h]
  · intro o h
    simp [OptionCls.unwrap, h]
  · intro o m h
    simp [OptionCls.unwrap, h]
  · intro v msg h
    simp [UniOpt.unwrap, h]
  · intro v h
    simp [UniOpt.unwrap, h]
  · intro v m h
    simp [UniOpt.unwrap, h]

/-- Witness for C8's amended theorem: a present value unwraps to itself
and an absent wrapper raises the caller-supplied message. -/
theorem c8_unwrap_amended_witness :
    OptionCls.unwrap (OptionCls.Some (JSVal.num 5)) Option.none
      = Except.ok (JSVal.num 5)
    ∧ UniOpt.unwrap JSVal.undef (Option.some "boom") = Except.error "boom" :=
  ⟨c8_unwrap_amended.1 (OptionCls.Some (JSVal.num 5)) Option.none rfl,
   c8_unwrap_amended.2.2.2.2.2 JSVal.undef "boom" rfl⟩
